import Mathlib

/-!
Shallow embedding of the playlist synchronization and retention engine in
`src/api/check-podcasts.js` (the `handler` function and its helpers
`handleShowEpisodes`, `cleanupOldEpisodes`, `cleanupMaxEpisodes`,
`cleanupCompleatedEpisodes`).

Remote calls are modelled by injected results carried in an `Env` record:
the playlist fetch, per-show episode fetches, per-uri add success, the
per-show removal success in the cap pass, and the batch metadata fetch of
the completed-episode purge.  Timestamps are integers (milliseconds since
the epoch, as JavaScript `Date` arithmetic produces).
-/

namespace SpotifyPodcast

/-- JavaScript `String.prototype.split` with a non-empty string
separator: non-overlapping occurrences scanned from the left, one
(possibly empty) piece between consecutive occurrences.  Structural
recursion on a fuel bounded by the character count. -/
def splitOnAux (sep : List Char) : Nat → List Char → List Char → List (List Char)
  | _, [], acc => [acc.reverse]
  | 0, _ :: _, acc => [acc.reverse]
  | fuel+1, c :: rest, acc =>
    if sep.isPrefixOf (c :: rest) then
      acc.reverse :: splitOnAux sep fuel ((c :: rest).drop sep.length) []
    else splitOnAux sep fuel rest (c :: acc)

/-- `s.split(sep)` for a non-empty string separator `sep`. -/
def splitOnStr (sep s : String) : List String :=
  (splitOnAux sep.toList s.toList.length s.toList []).map (fun cs => String.mk cs)

/-- One raw playlist item's `track` object as the handler reads it:
`track.id`, `track.uri` (absent/empty modelled as `none`, matching the
JS truthiness test `item.track && item.track.uri`), and
`track.artists[0].uri` from which the show id is split out. -/
structure RawTrack where
  id : String
  uri : Option String
  artistUri : String
deriving DecidableEq

/-- One raw item of `playlistData.body.items`: the optional `track`
object and the `added_at` timestamp (milliseconds). -/
structure RawItem where
  track : Option RawTrack
  added_at : Int
deriving DecidableEq

/-- A normalized snapshot entry, as built in `handler` lines 71-78:
`{ id, uri, addedAt, showId }` where
`showId = item.track.artists[0].uri.split("show:")[1]` (which is
`undefined`, i.e. `none`, when `"show:"` does not occur). -/
structure PlaylistEntry where
  id : String
  uri : String
  addedAt : Int
  showId : Option String
deriving DecidableEq

/-- `handler` lines 71-78: keep items having a `track` with a truthy
`uri`, and map them to snapshot entries. -/
def buildSnapshot (items : List RawItem) : List PlaylistEntry :=
  items.filterMap fun item =>
    match item.track with
    | none => none
    | some t =>
      match t.uri with
      | none => none
      | some u =>
        some { id := t.id, uri := u, addedAt := item.added_at,
               showId := (splitOnStr "show:" t.artistUri)[1]? }

/-- One configured show (`MY_SHOWS` element): display name and URL. -/
structure ShowConfig where
  name : String
  url : String
deriving DecidableEq

/-- `handleShowEpisodes` line 141:
`showInfo.url.split("/show/")[1].split("?")[0]`.
When `"/show/"` does not occur in the URL, `split` yields a one-element
array, `[1]` is `undefined`, and `.split` on it throws a `TypeError`:
that throwing case is `none`.  Otherwise the result is the segment after
the first `"/show/"`, truncated at the first `"?"` (possibly `""`). -/
def extractShowId (url : String) : Option String :=
  match splitOnStr "/show/" url with
  | [] => none
  | [_] => none
  | _ :: seg :: _ => some ((splitOnStr "?" seg).headD "")

/-- A candidate episode from a show fetch: `uri` and `name`, each `none`
when absent/falsy (the loop skips `!episode.uri || !episode.name`). -/
structure Cand where
  uri : Option String
  name : Option String
deriving DecidableEq

/-- A per-show result record as pushed at line 184:
`{ showId, showName, success }`. -/
structure ShowResult where
  showId : String
  showName : String
  success : Bool
deriving DecidableEq

/-- The job outcome: the 200 response `{success: true, newEpisodesAdded,
results, ...}` or the error response produced by a `catch` block. -/
inductive Outcome where
  | success (newEpisodesAdded : Nat) (results : List ShowResult)
  | failure
deriving DecidableEq

/-- Whether the outcome is the `success: true` response. -/
def Outcome.isSuccess : Outcome → Bool
  | .success _ _ => true
  | .failure => false

/-- The result of one `handleShowEpisodes` call: `ok adds records`
(the function returned normally, having made the successful add calls
`adds` and pushed `records`), or `fatal adds`, meaning an exception
reached the per-show `catch` block, whose `return res.status(...)`
references `res` — a variable not in scope in `handleShowEpisodes` —
so a `ReferenceError` escapes and rejects the call (lines 185-205). -/
inductive ShowOutcome where
  | ok (adds : List String) (records : List ShowResult)
  | fatal (adds : List String)
deriving DecidableEq

/-- The episode loop of `handleShowEpisodes` (lines 162-180): skip falsy
episodes and ones missing `uri` or `name`; skip episodes whose `uri` is
already in the snapshot; otherwise issue an add call.  A failing add
throws (the `Except.error` carries the successful adds made before). -/
def admitEpisodes (addOk : String → Bool) (snapshot : List PlaylistEntry) :
    List (Option Cand) → Except (List String) (List String)
  | [] => .ok []
  | none :: rest => admitEpisodes addOk snapshot rest
  | some c :: rest =>
    match c.uri, c.name with
    | some u, some _ =>
      if snapshot.any (fun e => e.uri = u) then admitEpisodes addOk snapshot rest
      else if addOk u then
        match admitEpisodes addOk snapshot rest with
        | .ok adds => .ok (u :: adds)
        | .error adds => .error (u :: adds)
      else .error []
    | _, _ => admitEpisodes addOk snapshot rest

/-- `handleShowEpisodes` (lines 130-206).  `fetch` models
`getShowEpisodes` for an extracted show id.  The `TypeError` from a URL
without `"/show/"` and any fetch/add failure all land in the per-show
`catch`, which itself throws (`res` is not in scope), so those paths are
`fatal`.  An empty extracted id or an empty/missing episode list returns
early with no record; the single success record is pushed only after the
whole episode loop completes. -/
def handleShowEpisodes (fetch : String → Except Unit (List (Option Cand)))
    (addOk : String → Bool) (snapshot : List PlaylistEntry)
    (cfg : ShowConfig) : ShowOutcome :=
  match extractShowId cfg.url with
  | none => .fatal []
  | some sid =>
    if sid = "" then .ok [] []
    else
      match fetch sid with
      | .error _ => .fatal []
      | .ok eps =>
        if eps.isEmpty then .ok [] []
        else
          match admitEpisodes addOk snapshot eps with
          | .error adds => .fatal adds
          | .ok adds => .ok adds [⟨sid, cfg.name, true⟩]

/-- The `for (const showInfo of MY_SHOWS)` loop in `handler` (lines
87-96): shows are processed in order; a `fatal` show outcome rejects the
awaited promise, so later shows are not processed (the `Bool` component
is `false` then).  Accumulates all successful add calls and all pushed
records. -/
def runShows (fetch : String → Except Unit (List (Option Cand)))
    (addOk : String → Bool) (snapshot : List PlaylistEntry) :
    List ShowConfig → List String × List ShowResult × Bool
  | [] => ([], [], true)
  | cfg :: rest =>
    match handleShowEpisodes fetch addOk snapshot cfg with
    | .fatal adds => (adds, [], false)
    | .ok adds recs =>
      let r := runShows fetch addOk snapshot rest
      (adds ++ r.1, recs ++ r.2.1, r.2.2)

/-- Milliseconds per day, as in `OLD_EPISODES_DAYS * 24 * 60 * 60 * 1000`. -/
def msPerDay : Int := 24 * 60 * 60 * 1000

/-- The age-expiry threshold `Date.now() - OLD_EPISODES_DAYS * msPerDay`. -/
def cutoff (now maxAgeDays : Int) : Int := now - maxAgeDays * msPerDay

/-- `cleanupOldEpisodes` lines 212-216: entries strictly older than the
cutoff. -/
def oldSelection (now maxAgeDays : Int) (snapshot : List PlaylistEntry) :
    List PlaylistEntry :=
  snapshot.filter (fun e => e.addedAt < cutoff now maxAgeDays)

/-- `cleanupOldEpisodes` (lines 208-241), as the list of removal calls it
issues: none when the selection is empty (early return at line 218),
otherwise a single batched call with all selected URIs.  A failure of the
removal call is caught inside the pass and nothing follows it, so it does
not change the calls made. -/
def cleanupOldEpisodes (now maxAgeDays : Int)
    (snapshot : List PlaylistEntry) : List (List String) :=
  let old := oldSelection now maxAgeDays snapshot
  if old.isEmpty then [] else [old.map (·.uri)]

/-- The sort relation of `.sort((a, b) => a.addedAt - b.addedAt)`. -/
def leAdded (a b : PlaylistEntry) : Prop := a.addedAt ≤ b.addedAt

instance : DecidableRel leAdded := fun a b =>
  inferInstanceAs (Decidable (a.addedAt ≤ b.addedAt))

instance : IsTotal PlaylistEntry leAdded :=
  ⟨fun a b => le_total a.addedAt b.addedAt⟩

instance : IsTrans PlaylistEntry leAdded :=
  ⟨fun _ _ _ hab hbc => le_trans hab hbc⟩

/-- The object key an entry is counted under in the `reduce` at lines
247-254: JS object keys are strings, so `acc[episode.showId]` with an
`undefined` `showId` (artist URI without `"show:"`) uses the coerced key
`"undefined"`. -/
def keyOf : Option String → String
  | some s => s
  | none => "undefined"

/-- The group counted under one accumulator key (lines 247-254):
entries whose coerced key is `k`. -/
def entriesOfKey (k : String) (snapshot : List PlaylistEntry) :
    List PlaylistEntry :=
  snapshot.filter (fun e => keyOf e.showId = k)

/-- The entries the removal filter at line 269 actually matches:
`ep.showId === showId` is strict equality with the iterated string key,
which an `undefined` `showId` never satisfies (`undefined === "undefined"`
is false), so only entries whose real show id equals `k` match. -/
def entriesOfShow (s : String) (snapshot : List PlaylistEntry) :
    List PlaylistEntry :=
  snapshot.filter (fun e => e.showId = some s)

/-- First occurrences, in order: the key order of the
`existingEpisodes.reduce` accumulator object (JS object keys iterate in
insertion order). -/
def firstOccs : List String → List String
  | [] => []
  | a :: as => a :: (firstOccs as).filter (fun b => b ≠ a)

/-- `showsWithTooManyEpisodes` (lines 258-260): the accumulator keys, in
first occurrence order, whose counted group exceeds the cap. -/
def overCapShows (maxPerShow : Nat) (snapshot : List PlaylistEntry) :
    List String :=
  (firstOccs (snapshot.map (fun e => keyOf e.showId))).filter
    (fun k => maxPerShow < (entriesOfKey k snapshot).length)

/-- Lines 268-272: the entries strictly matching the key, stably sorted
ascending by `addedAt` (ECMAScript `Array.prototype.sort` is stable;
`List.insertionSort` is exactly this stable sort), first
`count − maxPerShow` taken, where `count` is the counted group's size
(`slice` clamps like `take` when the strict match is smaller). -/
def capSelection (maxPerShow : Nat) (snapshot : List PlaylistEntry)
    (s : String) : List PlaylistEntry :=
  (List.insertionSort leAdded (entriesOfShow s snapshot)).take
    ((entriesOfKey s snapshot).length - maxPerShow)

/-- `cleanupMaxEpisodes` (lines 243-288) as the removal calls it would
issue when every call succeeds: one batched call per over-cap key (the
call for the `"undefined"` key carries no URI, since the strict filter
matches none of that group's entries). -/
def cleanupMaxEpisodes (maxPerShow : Nat) (snapshot : List PlaylistEntry) :
    List (List String) :=
  (overCapShows maxPerShow snapshot).map
    (fun s => (capSelection maxPerShow snapshot s).map (·.uri))

/-- All URIs removed by the per-show-cap pass. -/
def capRemovedUris (maxPerShow : Nat) (snapshot : List PlaylistEntry) :
    List String :=
  (cleanupMaxEpisodes maxPerShow snapshot).flatten

/-- The cap pass's loop over a given key list with removal failures
injected: a failing per-show removal call throws out of the loop to the
pass's own `catch`, so the failing call is still attempted but later
shows are skipped. -/
def capCallsFrom (maxPerShow : Nat) (snapshot : List PlaylistEntry)
    (removeOk : String → Bool) :
    List String → List (List String)
  | [] => []
  | s :: rest =>
    let c := (capSelection maxPerShow snapshot s).map (·.uri)
    if removeOk s then c :: capCallsFrom maxPerShow snapshot removeOk rest
    else [c]

/-- The removal calls actually attempted by `cleanupMaxEpisodes` given
per-show removal success `removeOk`. -/
def capCallsRun (maxPerShow : Nat) (snapshot : List PlaylistEntry)
    (removeOk : String → Bool) : List (List String) :=
  capCallsFrom maxPerShow snapshot removeOk (overCapShows maxPerShow snapshot)

/-- One item of the `getEpisodes` metadata response as the purge reads
it: a top-level `uri` and the `resume_point?.fully_played` flag
(`none` when `resume_point` is absent or has no flag). -/
structure EpisodeMeta where
  uri : String
  fullyPlayed : Option Bool
deriving DecidableEq

/-- Lines 304-306: URIs of the response items whose fully-played flag is
strictly `true` (`=== true`). -/
def completedSelection (metas : List EpisodeMeta) : List String :=
  (metas.filter (fun m => m.fullyPlayed = some true)).map (·.uri)

/-- `cleanupCompleatedEpisodes` (lines 290-322) as the removal calls it
issues.  A failed metadata fetch (`.error`) or a response missing the
`episodes` field (`.ok none`, line 298's thrown `Error`) is caught by the
pass's own `catch`: no removal call.  A well-formed response always
yields exactly one batched removal call — there is no empty-selection
check. -/
def cleanupCompleated (metaResp : Except Unit (Option (List EpisodeMeta))) :
    List (List String) :=
  match metaResp with
  | .error _ => []
  | .ok none => []
  | .ok (some metas) => [completedSelection metas]

/-- All injected remote behaviour and configuration for one run. -/
structure Env where
  shows : List ShowConfig
  playlistFetch : Except Unit (List RawItem)
  showFetch : String → Except Unit (List (Option Cand))
  addOk : String → Bool
  now : Int
  maxAgeDays : Int
  maxPerShow : Nat
  removeCapOk : String → Bool
  metaFetch : Except Unit (Option (List EpisodeMeta))

/-- Everything observable about one run: the outcome and the remote
add/removal calls made, per phase. -/
structure RunTrace where
  outcome : Outcome
  addCalls : List String
  oldCalls : List (List String)
  capCalls : List (List String)
  purgeCalls : List (List String)
deriving DecidableEq

/-- The whole `handler` run from the playlist fetch on (lines 64-127).
A failed playlist fetch throws to the outer `catch`: error outcome,
nothing else executed.  A `fatal` show outcome likewise reaches the
outer `catch`, so the cleanup passes never run.  Otherwise the three
cleanup passes run (each absorbing its own failures) and the 200
response is produced.  Its `newEpisodesAdded` is the handler's own `let`
variable: JavaScript passes numbers by value, so the `newEpisodesAdded++`
inside `handleShowEpisodes` increments that call's parameter only and
the handler's variable stays `0`. -/
def run (env : Env) : RunTrace :=
  match env.playlistFetch with
  | .error _ => ⟨.failure, [], [], [], []⟩
  | .ok items =>
    let snapshot := buildSnapshot items
    let r := runShows env.showFetch env.addOk snapshot env.shows
    if r.2.2 then
      ⟨.success 0 r.2.1, r.1,
        cleanupOldEpisodes env.now env.maxAgeDays snapshot,
        capCallsRun env.maxPerShow snapshot env.removeCapOk,
        cleanupCompleated env.metaFetch⟩
    else
      ⟨.failure, r.1, [], [], []⟩

/-! ## Helper lemmas -/

/-- Within a snapshot with pairwise-distinct URIs (§3 invariant), the
URI determines the entry. -/
theorem uri_inj {snapshot : List PlaylistEntry}
    (hnd : (snapshot.map (·.uri)).Nodup) :
    ∀ x ∈ snapshot, ∀ y ∈ snapshot, x.uri = y.uri → x = y :=
  fun _ hx _ hy h => List.inj_on_of_nodup_map hnd hx hy h

/-- The purge's removal calls after a successful, well-formed metadata
fetch: the one batched call. -/
theorem cleanupCompleated_ok_some (metas : List EpisodeMeta) :
    cleanupCompleated (.ok (some metas)) = [completedSelection metas] := rfl

/-! ## Claim theorems -/

/-- Claim C4: the Age Expiry pass never removes an entry with
`addedAt >= now − maxAgeDays`; it removes all entries strictly older than
the cutoff in a single batched removal call; and when no entry is
strictly older it makes no remote call at all. -/
theorem claim4_age_expiry (now maxAgeDays : Int) (snapshot : List PlaylistEntry)
    (hnd : (snapshot.map (·.uri)).Nodup) :
    (∀ e ∈ snapshot, cutoff now maxAgeDays ≤ e.addedAt →
      ∀ c ∈ cleanupOldEpisodes now maxAgeDays snapshot, e.uri ∉ c) ∧
    ((∀ e ∈ snapshot, cutoff now maxAgeDays ≤ e.addedAt) →
      cleanupOldEpisodes now maxAgeDays snapshot = []) ∧
    ((∃ e ∈ snapshot, e.addedAt < cutoff now maxAgeDays) →
      ∃ c, cleanupOldEpisodes now maxAgeDays snapshot = [c] ∧
        ∀ e ∈ snapshot, e.addedAt < cutoff now maxAgeDays → e.uri ∈ c) := by
  refine ⟨?_, ?_, ?_⟩
  · intro e he hcut c hc hu
    unfold cleanupOldEpisodes at hc
    by_cases hempty : (oldSelection now maxAgeDays snapshot).isEmpty
    · simp [hempty] at hc
    · have hE : (oldSelection now maxAgeDays snapshot).isEmpty = false := by
        simpa using hempty
      simp only [hE, Bool.false_eq_true, if_false, List.mem_singleton] at hc
      subst hc
      rcases List.mem_map.mp hu with ⟨y, hy, hyu⟩
      have hy' := List.mem_filter.mp hy
      have hye : y = e := uri_inj hnd y hy'.1 e he hyu
      subst hye
      have := of_decide_eq_true hy'.2
      omega
  · intro hall
    unfold cleanupOldEpisodes
    have : oldSelection now maxAgeDays snapshot = [] := by
      apply List.filter_eq_nil_iff.mpr
      intro e he
      simp only [decide_eq_true_eq, not_lt]
      exact hall e he
    simp [this]
  · intro ⟨e, he, hlt⟩
    have hmem : e ∈ oldSelection now maxAgeDays snapshot :=
      List.mem_filter.mpr ⟨he, decide_eq_true hlt⟩
    have hne : (oldSelection now maxAgeDays snapshot).isEmpty = false := by
      cases h : (oldSelection now maxAgeDays snapshot).isEmpty
      · rfl
      · rw [List.isEmpty_iff] at h
        rw [h] at hmem
        exact absurd hmem (List.not_mem_nil e)
    refine ⟨(oldSelection now maxAgeDays snapshot).map (·.uri), ?_, ?_⟩
    · unfold cleanupOldEpisodes
      simp [hne]
    · intro x hx hxlt
      exact List.mem_map.mpr
        ⟨x, List.mem_filter.mpr ⟨hx, decide_eq_true hxlt⟩, rfl⟩

/-- Claim C5: given a successful, well-formed metadata fetch whose items
carry each snapshot entry's URI and fetched fully-played flag, the
Completed-Episode Purge removes exactly the entries whose flag is `true`
and no entry whose flag is `false` or absent. -/
theorem claim5_completed_purge (flag : PlaylistEntry → Option Bool)
    (snapshot : List PlaylistEntry)
    (hnd : (snapshot.map (·.uri)).Nodup) :
    cleanupCompleated (.ok (some (snapshot.map (fun e => ⟨e.uri, flag e⟩)))) =
      [(snapshot.filter (fun e => flag e = some true)).map (·.uri)] ∧
    (∀ e ∈ snapshot, flag e ≠ some true →
      ∀ c ∈ cleanupCompleated
        (.ok (some (snapshot.map (fun e => ⟨e.uri, flag e⟩)))),
        e.uri ∉ c) := by
  have hsel : completedSelection (snapshot.map (fun e => ⟨e.uri, flag e⟩)) =
      (snapshot.filter (fun e => flag e = some true)).map (·.uri) := by
    unfold completedSelection
    rw [List.filter_map, List.map_map]
    rfl
  constructor
  · rw [cleanupCompleated_ok_some, hsel]
  · intro e he hflag c hc hu
    rw [cleanupCompleated_ok_some, hsel] at hc
    rw [List.mem_singleton] at hc
    subst hc
    rcases List.mem_map.mp hu with ⟨y, hy, hyu⟩
    have hy' := List.mem_filter.mp hy
    have hye : y = e := uri_inj hnd y hy'.1 e he hyu
    subst hye
    exact hflag (of_decide_eq_true hy'.2)

/-- Claim C9: after a successful, well-formed metadata fetch the
Completed-Episode Purge always issues its batched removal call, even
when the fully-played selection is empty — it has no empty-selection
check, unlike the Age Expiry pass, which makes no remote call when its
selection is empty. -/
theorem claim9_purge_always_calls :
    (∀ metas, cleanupCompleated (.ok (some metas)) = [completedSelection metas]) ∧
    cleanupCompleated (.ok (some [])) = [[]] ∧
    (∀ now maxAgeDays snapshot, oldSelection now maxAgeDays snapshot = [] →
      cleanupOldEpisodes now maxAgeDays snapshot = []) := by
  refine ⟨cleanupCompleated_ok_some, cleanupCompleated_ok_some [], ?_⟩
  intro now maxAgeDays snapshot h
  unfold cleanupOldEpisodes
  simp [h]

/-- Claim C8: when the playlist snapshot fetch fails the whole run
aborts with a single error outcome — no admission call, no cleanup call;
and every snapshot entry comes from a playlist item that has a track
with a URI (items lacking either are excluded). -/
theorem claim8_snapshot_gate :
    (∀ (env : Env) (u : Unit), env.playlistFetch = .error u →
      run env = ⟨.failure, [], [], [], []⟩) ∧
    (∀ (items : List RawItem), ∀ entry ∈ buildSnapshot items,
      ∃ i ∈ items, ∃ t, i.track = some t ∧ t.uri = some entry.uri ∧
        entry.addedAt = i.added_at) := by
  constructor
  · intro env u h
    unfold run
    rw [h]
  · intro items entry hm
    unfold buildSnapshot at hm
    rcases List.mem_filterMap.mp hm with ⟨i, hi, hf⟩
    refine ⟨i, hi, ?_⟩
    split at hf
    · exact absurd hf (by simp)
    · rename_i t htrack
      split at hf
      · exact absurd hf (by simp)
      · rename_i u huri
        rw [Option.some_inj] at hf
        subst hf
        exact ⟨t, htrack, huri, rfl⟩

/-- Claim C10: a show whose URL yields an empty extracted id, or whose
episode fetch returns an empty list, leaves no record in the per-show
results; and any produced record is a single `success: true` record,
produced only after the whole episode loop completed normally. -/
theorem claim10_no_record_paths
    (fetch : String → Except Unit (List (Option Cand)))
    (addOk : String → Bool) (snapshot : List PlaylistEntry)
    (cfg : ShowConfig) :
    (extractShowId cfg.url = some "" →
      handleShowEpisodes fetch addOk snapshot cfg = .ok [] []) ∧
    (∀ sid, extractShowId cfg.url = some sid → fetch sid = .ok [] →
      handleShowEpisodes fetch addOk snapshot cfg = .ok [] []) ∧
    (∀ adds recs, handleShowEpisodes fetch addOk snapshot cfg = .ok adds recs →
      recs = [] ∨
      ∃ sid eps, extractShowId cfg.url = some sid ∧ sid ≠ "" ∧
        fetch sid = .ok eps ∧ eps ≠ [] ∧
        admitEpisodes addOk snapshot eps = .ok adds ∧
        recs = [⟨sid, cfg.name, true⟩] ∧
        ∀ r ∈ recs, r.success = true) := by
  refine ⟨?_, ?_, ?_⟩
  · intro h
    unfold handleShowEpisodes
    rw [h]
    simp
  · intro sid h hfetch
    unfold handleShowEpisodes
    rw [h]
    by_cases hsid : sid = ""
    · simp [hsid]
    · simp [hsid, hfetch]
  · intro adds recs h
    unfold handleShowEpisodes at h
    split at h
    · exact absurd h (by simp)
    · rename_i sid hex
      split at h
      · cases h
        exact Or.inl rfl
      · rename_i hsid
        split at h
        · exact absurd h (by simp)
        · rename_i eps hfetch
          split at h
          · cases h
            exact Or.inl rfl
          · rename_i hemp
            split at h
            · exact absurd h (by simp)
            · rename_i l hadm
              cases h
              refine Or.inr ⟨sid, eps, hex, hsid, hfetch, ?_, hadm, rfl, ?_⟩
              · intro he
                rw [he] at hemp
                exact hemp rfl
              · intro r hr
                rw [List.mem_singleton] at hr
                rw [hr]

/-- Claim C6: once admission has completed, the run's outcome is the
`success: true` response and each cleanup pass's remote calls are given
by that pass's own inputs alone — a failure inside one pass (a failed
removal call, a failed metadata fetch, or a metadata response missing
the `episodes` field) is absorbed by that pass and aborts neither the
other passes nor the run.  In particular a purge metadata response
missing the expected field leaves the purge without any removal call
while the run still succeeds with the earlier passes' calls intact. -/
theorem claim6_cleanup_isolation (env : Env) (items : List RawItem)
    (h1 : env.playlistFetch = .ok items)
    (h2 : (runShows env.showFetch env.addOk (buildSnapshot items)
      env.shows).2.2 = true) :
    (run env).outcome.isSuccess = true ∧
    (run env).oldCalls =
      cleanupOldEpisodes env.now env.maxAgeDays (buildSnapshot items) ∧
    (run env).capCalls =
      capCallsRun env.maxPerShow (buildSnapshot items) env.removeCapOk ∧
    (run env).purgeCalls = cleanupCompleated env.metaFetch ∧
    (env.metaFetch = .ok none → (run env).purgeCalls = []) ∧
    (∀ u : Unit, env.metaFetch = .error u → (run env).purgeCalls = []) := by
  have hrun : run env =
      ⟨.success 0 (runShows env.showFetch env.addOk (buildSnapshot items)
          env.shows).2.1,
        (runShows env.showFetch env.addOk (buildSnapshot items) env.shows).1,
        cleanupOldEpisodes env.now env.maxAgeDays (buildSnapshot items),
        capCallsRun env.maxPerShow (buildSnapshot items) env.removeCapOk,
        cleanupCompleated env.metaFetch⟩ := by
    unfold run
    rw [h1]
    simp only [h2, if_true]
  rw [hrun]
  refine ⟨rfl, rfl, rfl, rfl, ?_, ?_⟩
  · intro hm
    rw [hm]
    rfl
  · intro u hm
    rw [hm]
    rfl

/-- The successful add calls carried by an `admitEpisodes` result,
whether the loop completed or threw. -/
def exceptAdds : Except (List String) (List String) → List String
  | .ok l => l
  | .error l => l

/-- The add calls carried by a `handleShowEpisodes` outcome. -/
def ShowOutcome.addsOf : ShowOutcome → List String
  | .ok adds _ => adds
  | .fatal adds => adds

theorem admit_nil (addOk : String → Bool) (snapshot : List PlaylistEntry) :
    admitEpisodes addOk snapshot [] = .ok [] := rfl

theorem admit_none (addOk : String → Bool) (snapshot : List PlaylistEntry)
    (tl : List (Option Cand)) :
    admitEpisodes addOk snapshot (none :: tl) =
      admitEpisodes addOk snapshot tl := rfl

theorem admit_skip_nouri (addOk : String → Bool)
    (snapshot : List PlaylistEntry) (tl : List (Option Cand))
    (nm : Option String) :
    admitEpisodes addOk snapshot (some ⟨none, nm⟩ :: tl) =
      admitEpisodes addOk snapshot tl := rfl

theorem admit_skip_noname (addOk : String → Bool)
    (snapshot : List PlaylistEntry) (tl : List (Option Cand)) (u : String) :
    admitEpisodes addOk snapshot (some ⟨some u, none⟩ :: tl) =
      admitEpisodes addOk snapshot tl := rfl

theorem admit_some (addOk : String → Bool) (snapshot : List PlaylistEntry)
    (tl : List (Option Cand)) (u nm : String) :
    admitEpisodes addOk snapshot (some ⟨some u, some nm⟩ :: tl) =
      (if snapshot.any (fun e => e.uri = u) then
        admitEpisodes addOk snapshot tl
      else if addOk u then
        match admitEpisodes addOk snapshot tl with
        | .ok adds => .ok (u :: adds)
        | .error adds => .error (u :: adds)
      else .error []) := rfl

/-- Every URI the admission loop adds was absent from the snapshot. -/
theorem admit_adds_not_in_snapshot (addOk : String → Bool)
    (snapshot : List PlaylistEntry) (eps : List (Option Cand)) (u : String)
    (hm : u ∈ exceptAdds (admitEpisodes addOk snapshot eps)) :
    snapshot.any (fun e => e.uri = u) = false := by
  induction eps with
  | nil => rw [admit_nil] at hm; exact absurd hm (by simp [exceptAdds])
  | cons hd tl ih =>
    cases hd with
    | none => rw [admit_none] at hm; exact ih hm
    | some c =>
      obtain ⟨cu, cn⟩ := c
      cases cu with
      | none => rw [admit_skip_nouri] at hm; exact ih hm
      | some v =>
        cases cn with
        | none => rw [admit_skip_noname] at hm; exact ih hm
        | some nm =>
          rw [admit_some] at hm
          by_cases hin : snapshot.any (fun e => e.uri = v) = true
          · rw [if_pos hin] at hm
            exact ih hm
          · rw [if_neg hin] at hm
            by_cases hok : addOk v = true
            · rw [if_pos hok] at hm
              cases hrec : admitEpisodes addOk snapshot tl with
              | ok adds =>
                rw [hrec] at hm
                simp only [exceptAdds, List.mem_cons] at hm
                rcases hm with rfl | hm
                · exact Bool.eq_false_iff.mpr hin
                · exact ih (by rw [hrec]; exact hm)
              | error adds =>
                rw [hrec] at hm
                simp only [exceptAdds, List.mem_cons] at hm
                rcases hm with rfl | hm
                · exact Bool.eq_false_iff.mpr hin
                · exact ih (by rw [hrec]; exact hm)
            · rw [if_neg hok] at hm
              exact absurd hm (by simp [exceptAdds])

/-- Every URI `handleShowEpisodes` adds was absent from the snapshot. -/
theorem handleShow_adds_not_in_snapshot
    (fetch : String → Except Unit (List (Option Cand)))
    (addOk : String → Bool) (snapshot : List PlaylistEntry)
    (cfg : ShowConfig) (u : String)
    (hm : u ∈ (handleShowEpisodes fetch addOk snapshot cfg).addsOf) :
    snapshot.any (fun e => e.uri = u) = false := by
  unfold handleShowEpisodes at hm
  split at hm
  · exact absurd hm (by simp [ShowOutcome.addsOf])
  · split at hm
    · exact absurd hm (by simp [ShowOutcome.addsOf])
    · split at hm
      · exact absurd hm (by simp [ShowOutcome.addsOf])
      · rename_i eps hfetch
        split at hm
        · exact absurd hm (by simp [ShowOutcome.addsOf])
        · split at hm
          · rename_i adds hadm
            simp only [ShowOutcome.addsOf] at hm
            exact admit_adds_not_in_snapshot addOk snapshot eps u
              (by rw [hadm]; exact hm)
          · rename_i adds hadm
            simp only [ShowOutcome.addsOf] at hm
            exact admit_adds_not_in_snapshot addOk snapshot eps u
              (by rw [hadm]; exact hm)

/-- Every URI added across the whole show loop was absent from the
snapshot. -/
theorem runShows_adds_not_in_snapshot
    (fetch : String → Except Unit (List (Option Cand)))
    (addOk : String → Bool) (snapshot : List PlaylistEntry)
    (shows : List ShowConfig) (u : String)
    (hm : u ∈ (runShows fetch addOk snapshot shows).1) :
    snapshot.any (fun e => e.uri = u) = false := by
  induction shows with
  | nil => simp [runShows] at hm
  | cons cfg rest ih =>
    rw [runShows] at hm
    split at hm
    · rename_i adds heq
      exact handleShow_adds_not_in_snapshot fetch addOk snapshot cfg u
        (by rw [heq]; exact hm)
    · rename_i adds recs heq
      simp only [List.mem_append] at hm
      rcases hm with hm | hm
      · exact handleShow_adds_not_in_snapshot fetch addOk snapshot cfg u
          (by rw [heq]; exact hm)
      · exact ih hm

theorem any_uri_eq_false_iff (snapshot : List PlaylistEntry) (u : String) :
    snapshot.any (fun e => e.uri = u) = false ↔
      u ∉ snapshot.map (·.uri) := by
  simp only [List.any_eq_false, List.mem_map, decide_eq_true_eq,
    not_exists, not_and]

/-- Every URI in an Age Expiry removal call is in the snapshot. -/
theorem oldCalls_subset (now maxAgeDays : Int)
    (snapshot : List PlaylistEntry) (c : List String)
    (hc : c ∈ cleanupOldEpisodes now maxAgeDays snapshot) :
    ∀ u ∈ c, u ∈ snapshot.map (·.uri) := by
  unfold cleanupOldEpisodes at hc
  by_cases h : (oldSelection now maxAgeDays snapshot).isEmpty
  · simp [h] at hc
  · have hE : (oldSelection now maxAgeDays snapshot).isEmpty = false := by
      simpa using h
    simp only [hE, Bool.false_eq_true, if_false, List.mem_singleton] at hc
    subst hc
    intro u hu
    rcases List.mem_map.mp hu with ⟨e, he, heq⟩
    exact List.mem_map.mpr ⟨e, (List.mem_filter.mp he).1, heq⟩

/-- Every entry of a cap-pass selection is in the snapshot. -/
theorem capSelection_subset (maxPerShow : Nat)
    (snapshot : List PlaylistEntry) (s : String) :
    ∀ x ∈ capSelection maxPerShow snapshot s, x ∈ snapshot := by
  intro x hx
  unfold capSelection at hx
  have h1 : x ∈ List.insertionSort leAdded (entriesOfShow s snapshot) :=
    List.take_subset _ _ hx
  rw [List.mem_insertionSort] at h1
  exact (List.mem_filter.mp h1).1

/-- Every call attempted by the cap pass is a show's cap selection. -/
theorem capCallsFrom_shape (maxPerShow : Nat)
    (snapshot : List PlaylistEntry) (removeOk : String → Bool)
    (ss : List String) (c : List String)
    (hc : c ∈ capCallsFrom maxPerShow snapshot removeOk ss) :
    ∃ s, c = (capSelection maxPerShow snapshot s).map (·.uri) := by
  induction ss with
  | nil => simp [capCallsFrom] at hc
  | cons s rest ih =>
    rw [capCallsFrom] at hc
    split at hc
    · rcases List.mem_cons.mp hc with rfl | hc
      · exact ⟨s, rfl⟩
      · exact ih hc
    · rw [List.mem_singleton] at hc
      exact ⟨s, hc⟩

/-- Claim C7: all three retention passes select only URIs present in the
pre-admission snapshot (the purge under the collaborator contract that
metadata is returned for the queried snapshot ids), so an episode added
by this run's admission phase is never selected for removal by any of
this run's retention passes. -/
theorem claim7_pre_admission_snapshot (env : Env) (items : List RawItem)
    (h1 : env.playlistFetch = .ok items)
    (hmeta : ∀ metas, env.metaFetch = .ok (some metas) →
      ∀ m ∈ metas, m.uri ∈ (buildSnapshot items).map (·.uri)) :
    ∀ u ∈ (run env).addCalls,
      (∀ c ∈ (run env).oldCalls, u ∉ c) ∧
      (∀ c ∈ (run env).capCalls, u ∉ c) ∧
      (∀ c ∈ (run env).purgeCalls, u ∉ c) := by
  intro u hu
  by_cases hflag : (runShows env.showFetch env.addOk (buildSnapshot items)
      env.shows).2.2 = true
  · have hrun : run env =
        ⟨.success 0 (runShows env.showFetch env.addOk (buildSnapshot items)
            env.shows).2.1,
          (runShows env.showFetch env.addOk (buildSnapshot items) env.shows).1,
          cleanupOldEpisodes env.now env.maxAgeDays (buildSnapshot items),
          capCallsRun env.maxPerShow (buildSnapshot items) env.removeCapOk,
          cleanupCompleated env.metaFetch⟩ := by
      unfold run
      rw [h1]
      simp only [hflag, if_true]
    rw [hrun] at hu ⊢
    have hnot : u ∉ (buildSnapshot items).map (·.uri) :=
      (any_uri_eq_false_iff _ u).mp
        (runShows_adds_not_in_snapshot _ _ _ _ u hu)
    refine ⟨?_, ?_, ?_⟩
    · intro c hc hin
      exact hnot (oldCalls_subset env.now env.maxAgeDays _ c hc u hin)
    · intro c hc hin
      rcases capCallsFrom_shape env.maxPerShow _ env.removeCapOk _ c hc
        with ⟨s, rfl⟩
      rcases List.mem_map.mp hin with ⟨x, hx, hxu⟩
      exact hnot (List.mem_map.mpr
        ⟨x, capSelection_subset env.maxPerShow _ s x hx, hxu⟩)
    · intro c hc hin
      cases hmf : env.metaFetch with
      | error e =>
        rw [hmf] at hc
        exact absurd hc (by simp [cleanupCompleated])
      | ok o =>
        cases o with
        | none =>
          rw [hmf] at hc
          exact absurd hc (by simp [cleanupCompleated])
        | some metas =>
          rw [hmf] at hc
          rw [cleanupCompleated_ok_some, List.mem_singleton] at hc
          subst hc
          rcases List.mem_map.mp hin with ⟨m, hmm, hmu⟩
          exact hnot (hmu ▸ hmeta metas hmf m (List.mem_filter.mp hmm).1)
  · have hflag' : (runShows env.showFetch env.addOk (buildSnapshot items)
        env.shows).2.2 = false := by
      simpa using hflag
    have hrun : run env =
        ⟨.failure,
          (runShows env.showFetch env.addOk (buildSnapshot items) env.shows).1,
          [], [], []⟩ := by
      unfold run
      rw [h1]
      simp only [hflag', Bool.false_eq_true, if_false]
    rw [hrun]
    refine ⟨?_, ?_, ?_⟩ <;> intro c hc <;> exact absurd hc (by simp)

/-! ### Stability of the cap pass's sort -/

theorem orderedInsert_filter_neg (x : PlaylistEntry) (p : PlaylistEntry → Bool)
    (hp : p x = false) :
    ∀ m : List PlaylistEntry,
      (List.orderedInsert leAdded x m).filter p = m.filter p
  | [] => by simp [hp]
  | b :: bs => by
    unfold List.orderedInsert
    by_cases h : leAdded x b
    · rw [if_pos h]
      simp [List.filter_cons, hp]
    · rw [if_neg h]
      rw [List.filter_cons, List.filter_cons,
        orderedInsert_filter_neg x p hp bs]

theorem orderedInsert_filter_pos (x : PlaylistEntry) (p : PlaylistEntry → Bool)
    (hp : p x = true) (hlt : ∀ b, ¬ leAdded x b → p b = false) :
    ∀ m : List PlaylistEntry,
      (List.orderedInsert leAdded x m).filter p = x :: m.filter p
  | [] => by simp [hp]
  | b :: bs => by
    unfold List.orderedInsert
    by_cases h : leAdded x b
    · rw [if_pos h]
      simp [List.filter_cons, hp]
    · rw [if_neg h]
      simp only [List.filter_cons, hlt b h, Bool.false_eq_true, if_false,
        orderedInsert_filter_pos x p hp hlt bs]

/-- A stable sort preserves, for each key value, the sublist of elements
with that key: this is the ECMAScript stability guarantee for
`.sort((a, b) => a.addedAt - b.addedAt)`. -/
theorem insertionSort_filter_key (t : Int) :
    ∀ l : List PlaylistEntry,
      (List.insertionSort leAdded l).filter (fun e => e.addedAt = t) =
        l.filter (fun e => e.addedAt = t)
  | [] => rfl
  | x :: l => by
    rw [show List.insertionSort leAdded (x :: l) =
      List.orderedInsert leAdded x (List.insertionSort leAdded l) from rfl]
    by_cases hx : x.addedAt = t
    · rw [orderedInsert_filter_pos x _ (by simp [hx])
        (fun b hb => by
          have hblt : b.addedAt < x.addedAt := not_le.mp hb
          simp only [decide_eq_false_iff_not]
          intro hbt
          omega)]
      rw [insertionSort_filter_key t l]
      simp [List.filter_cons, hx]
    · rw [orderedInsert_filter_neg x _ (by simp [hx])]
      rw [insertionSort_filter_key t l]
      simp [List.filter_cons, hx]

theorem mem_firstOccs (a : String) :
    ∀ l : List String, a ∈ firstOccs l ↔ a ∈ l
  | [] => Iff.rfl
  | b :: l => by
    rw [show firstOccs (b :: l) =
      b :: (firstOccs l).filter (fun c => c ≠ b) from rfl]
    simp only [List.mem_cons]
    constructor
    · rintro (rfl | h)
      · exact Or.inl rfl
      · exact Or.inr ((mem_firstOccs a l).mp (List.mem_of_mem_filter h))
    · rintro (rfl | h)
      · exact Or.inl rfl
      · by_cases hab : a = b
        · exact Or.inl hab
        · exact Or.inr (List.mem_filter.mpr
            ⟨(mem_firstOccs a l).mpr h, by simp [hab]⟩)

theorem capSelection_mem_entries (maxPerShow : Nat)
    (snapshot : List PlaylistEntry) (s : String) :
    ∀ y ∈ capSelection maxPerShow snapshot s,
      y ∈ entriesOfShow s snapshot := by
  intro y hy
  have h1 : y ∈ List.insertionSort leAdded (entriesOfShow s snapshot) :=
    List.take_subset _ _ hy
  rwa [List.mem_insertionSort] at h1

theorem entriesOfShow_showId (s : String)
    (snapshot : List PlaylistEntry) :
    ∀ y ∈ entriesOfShow s snapshot, y.showId = some s := by
  intro y hy
  exact of_decide_eq_true (List.mem_filter.mp hy).2

theorem mem_overCapShows (maxPerShow : Nat) (snapshot : List PlaylistEntry)
    (k : String)
    (hcount : maxPerShow < (entriesOfKey k snapshot).length) :
    k ∈ overCapShows maxPerShow snapshot := by
  have hne : entriesOfKey k snapshot ≠ [] := by
    intro h
    rw [h] at hcount
    simp at hcount
  obtain ⟨x, hx⟩ := List.exists_mem_of_ne_nil _ hne
  have hxs : x ∈ snapshot := (List.mem_filter.mp hx).1
  have hxid : keyOf x.showId = k :=
    of_decide_eq_true (List.mem_filter.mp hx).2
  unfold overCapShows
  exact List.mem_filter.mpr
    ⟨(mem_firstOccs k _).mpr (List.mem_map.mpr ⟨x, hxs, hxid⟩),
      by simpa using hcount⟩

theorem capRemovedUris_shape (maxPerShow : Nat)
    (snapshot : List PlaylistEntry) (u : String)
    (hm : u ∈ capRemovedUris maxPerShow snapshot) :
    ∃ s : String, s ∈ overCapShows maxPerShow snapshot ∧
      ∃ y ∈ capSelection maxPerShow snapshot s, y.uri = u := by
  unfold capRemovedUris at hm
  rcases List.mem_flatten.mp hm with ⟨c, hc, hu⟩
  unfold cleanupMaxEpisodes at hc
  rcases List.mem_map.mp hc with ⟨s, hs, rfl⟩
  rcases List.mem_map.mp hu with ⟨y, hy, hyu⟩
  exact ⟨s, hs, y, hy, hyu⟩

/-- With distinct URIs, an entry whose URI the cap pass removed has a
real show id, is in that show's cap selection, and that show's counted
group is over the cap. -/
theorem capRemoved_self (maxPerShow : Nat) (snapshot : List PlaylistEntry)
    (hnd : (snapshot.map (·.uri)).Nodup) (x : PlaylistEntry)
    (hx : x ∈ snapshot) (hm : x.uri ∈ capRemovedUris maxPerShow snapshot) :
    ∃ k : String, x.showId = some k ∧
      maxPerShow < (entriesOfKey k snapshot).length ∧
      x ∈ capSelection maxPerShow snapshot k := by
  rcases capRemovedUris_shape maxPerShow snapshot x.uri hm with
    ⟨s, hs, y, hy, hyu⟩
  have hyE : y ∈ entriesOfShow s snapshot :=
    capSelection_mem_entries _ _ _ y hy
  have hysnap : y ∈ snapshot := (List.mem_filter.mp hyE).1
  have hxy : y = x := uri_inj hnd y hysnap x hx hyu
  subst hxy
  have hsy : y.showId = some s := entriesOfShow_showId s snapshot y hyE
  refine ⟨s, hsy, ?_, hy⟩
  unfold overCapShows at hs
  exact of_decide_eq_true (List.mem_filter.mp hs).2

/-- For a key other than the coerced `"undefined"`, the counted group is
exactly the strictly matching entries. -/
theorem entriesOfKey_eq_entriesOfShow (s : String) (hs : s ≠ "undefined")
    (snapshot : List PlaylistEntry) :
    entriesOfKey s snapshot = entriesOfShow s snapshot := by
  unfold entriesOfKey entriesOfShow
  apply List.filter_congr
  intro e _
  apply decide_eq_decide.mpr
  cases hid : e.showId with
  | none =>
    simp only [keyOf]
    constructor
    · intro h
      exact absurd h.symm hs
    · intro h
      exact absurd h (by simp)
  | some t =>
    simp only [keyOf, Option.some_inj]

/-- Claim C3 (amended): under the snapshot's distinct-URI invariant and
provided no show's id is the literal string `"undefined"` (the JS object
key under which entries without an extractable show id are counted), for
every show over the cap the Per-Show Cap pass issues that show's batched
removal call, removes exactly `count − maxPerShow` entries, leaves the
show with exactly `maxPerShow` entries, and every removed entry is
older than every kept entry of that show — with equal `addedAt` broken
by original snapshot order (the removed one occurs earlier, a stable
sort); shows at or under the cap have no entry removed by this pass; and
entries without an extractable show id are never removed by this pass,
even when their counted group exceeds the cap. -/
theorem claim3_per_show_cap (maxPerShow : Nat) (snapshot : List PlaylistEntry)
    (hnd : (snapshot.map (·.uri)).Nodup)
    (hnone : ∀ e ∈ snapshot, e.showId ≠ some "undefined") :
    (∀ s, maxPerShow < (entriesOfShow s snapshot).length →
      ((capSelection maxPerShow snapshot s).map (·.uri)) ∈
        cleanupMaxEpisodes maxPerShow snapshot ∧
      (capSelection maxPerShow snapshot s).length =
        (entriesOfShow s snapshot).length - maxPerShow ∧
      ((entriesOfShow s snapshot).filter
        (fun x => x.uri ∉ capRemovedUris maxPerShow snapshot)).length =
        maxPerShow ∧
      (∀ r ∈ capSelection maxPerShow snapshot s,
        ∀ k ∈ (entriesOfShow s snapshot).filter
          (fun x => x.uri ∉ capRemovedUris maxPerShow snapshot),
        r.addedAt < k.addedAt ∨
          (r.addedAt = k.addedAt ∧ List.Sublist [r, k] snapshot))) ∧
    (∀ s, (entriesOfShow s snapshot).length ≤ maxPerShow →
      ∀ x ∈ entriesOfShow s snapshot,
        x.uri ∉ capRemovedUris maxPerShow snapshot) ∧
    (∀ x ∈ snapshot, x.showId = none →
      x.uri ∉ capRemovedUris maxPerShow snapshot) := by
  refine ⟨?_, ?_, ?_⟩
  · intro s hcount
    have hsne : s ≠ "undefined" := by
      have hne : entriesOfShow s snapshot ≠ [] := by
        intro h
        rw [h] at hcount
        simp at hcount
      obtain ⟨x, hx⟩ := List.exists_mem_of_ne_nil _ hne
      intro hu
      exact hnone x (List.mem_filter.mp hx).1
        (by rw [← hu]; exact entriesOfShow_showId s snapshot x hx)
    have hkey : entriesOfKey s snapshot = entriesOfShow s snapshot :=
      entriesOfKey_eq_entriesOfShow s hsne snapshot
    have hcapdef : capSelection maxPerShow snapshot s =
        (List.insertionSort leAdded (entriesOfShow s snapshot)).take
          ((entriesOfShow s snapshot).length - maxPerShow) := by
      unfold capSelection
      rw [hkey]
    have hpermE : List.Perm
        (List.insertionSort leAdded (entriesOfShow s snapshot))
        (entriesOfShow s snapshot) :=
      List.perm_insertionSort leAdded (entriesOfShow s snapshot)
    have hlensorted :
        (List.insertionSort leAdded (entriesOfShow s snapshot)).length =
          (entriesOfShow s snapshot).length := hpermE.length_eq
    have hexcle : (entriesOfShow s snapshot).length - maxPerShow ≤
        (List.insertionSort leAdded (entriesOfShow s snapshot)).length := by
      rw [hlensorted]
      exact Nat.sub_le _ _
    have hcall : ((capSelection maxPerShow snapshot s).map (·.uri)) ∈
        cleanupMaxEpisodes maxPerShow snapshot := by
      unfold cleanupMaxEpisodes
      exact List.mem_map.mpr
        ⟨s, mem_overCapShows maxPerShow snapshot s
          (by rw [hkey]; exact hcount), rfl⟩
    have hlencap : (capSelection maxPerShow snapshot s).length =
        (entriesOfShow s snapshot).length - maxPerShow := by
      rw [hcapdef, List.length_take]
      exact min_eq_left hexcle
    have hEsub : List.Sublist (entriesOfShow s snapshot) snapshot :=
      List.filter_sublist snapshot
    have hndE : ((entriesOfShow s snapshot).map (·.uri)).Nodup :=
      List.Nodup.sublist (List.Sublist.map (·.uri) hEsub) hnd
    have hEnodup : (entriesOfShow s snapshot).Nodup :=
      List.Nodup.of_map _ hndE
    have hsortednodup :
        (List.insertionSort leAdded (entriesOfShow s snapshot)).Nodup :=
      hpermE.nodup_iff.mpr hEnodup
    -- membership in the cap's own call determines membership in
    -- anything the whole pass removes, for entries of this show
    have hq : ∀ x ∈ entriesOfShow s snapshot,
        (decide (x.uri ∉ capRemovedUris maxPerShow snapshot)) =
          (decide (x.uri ∉ (capSelection maxPerShow snapshot s).map (·.uri))) := by
      intro x hxE
      have hxid : x.showId = some s := entriesOfShow_showId s snapshot x hxE
      have hxsnap : x ∈ snapshot := (List.mem_filter.mp hxE).1
      apply decide_eq_decide.mpr
      apply not_congr
      constructor
      · intro hin
        rcases capRemoved_self maxPerShow snapshot hnd x hxsnap hin with
          ⟨k, hk, _, hksel⟩
        rw [hxid, Option.some_inj] at hk
        rw [← hk] at hksel
        exact List.mem_map.mpr ⟨x, hksel, rfl⟩
      · intro hin
        unfold capRemovedUris
        exact List.mem_flatten.mpr ⟨_, hcall, hin⟩
    have hfilter_eq : (entriesOfShow s snapshot).filter
        (fun x => x.uri ∉ capRemovedUris maxPerShow snapshot) =
        (entriesOfShow s snapshot).filter
        (fun x => x.uri ∉ (capSelection maxPerShow snapshot s).map (·.uri)) :=
      List.filter_congr hq
    have htake_nil :
        ((List.insertionSort leAdded (entriesOfShow s snapshot)).take
          ((entriesOfShow s snapshot).length - maxPerShow)).filter
          (fun x => x.uri ∉ (capSelection maxPerShow snapshot s).map (·.uri)) =
          [] := by
      apply List.filter_eq_nil_iff.mpr
      intro x hx
      have hxc : x ∈ capSelection maxPerShow snapshot s := by
        rw [hcapdef]
        exact hx
      intro h
      exact absurd (List.mem_map.mpr ⟨x, hxc, rfl⟩) (of_decide_eq_true h)
    have hdrop_self :
        ((List.insertionSort leAdded (entriesOfShow s snapshot)).drop
          ((entriesOfShow s snapshot).length - maxPerShow)).filter
          (fun x => x.uri ∉ (capSelection maxPerShow snapshot s).map (·.uri)) =
          (List.insertionSort leAdded (entriesOfShow s snapshot)).drop
            ((entriesOfShow s snapshot).length - maxPerShow) := by
      apply List.filter_eq_self.mpr
      intro x hx
      apply decide_eq_true
      intro hin
      rcases List.mem_map.mp hin with ⟨y, hy, hyu⟩
      have hytake : y ∈ (List.insertionSort leAdded
          (entriesOfShow s snapshot)).take
          ((entriesOfShow s snapshot).length - maxPerShow) := by
        rw [hcapdef] at hy
        exact hy
      have hysnap : y ∈ snapshot := (List.mem_filter.mp
        ((List.mem_insertionSort leAdded).mp
          (List.take_subset _ _ hytake))).1
      have hxsnap : x ∈ snapshot := (List.mem_filter.mp
        ((List.mem_insertionSort leAdded).mp
          (List.drop_subset _ _ hx))).1
      have hxy : y = x := uri_inj hnd y hysnap x hxsnap hyu
      subst hxy
      have hnodupapp : (((List.insertionSort leAdded
          (entriesOfShow s snapshot)).take
          ((entriesOfShow s snapshot).length - maxPerShow)) ++
          ((List.insertionSort leAdded (entriesOfShow s snapshot)).drop
          ((entriesOfShow s snapshot).length - maxPerShow))).Nodup := by
        rw [List.take_append_drop]
        exact hsortednodup
      exact List.disjoint_of_nodup_append hnodupapp hytake hx
    have hkept_perm : List.Perm
        ((entriesOfShow s snapshot).filter
          (fun x => x.uri ∉ (capSelection maxPerShow snapshot s).map (·.uri)))
        ((List.insertionSort leAdded (entriesOfShow s snapshot)).drop
          ((entriesOfShow s snapshot).length - maxPerShow)) := by
      have h1 := (hpermE.filter
        (fun x => decide (x.uri ∉
          (capSelection maxPerShow snapshot s).map (·.uri)))).symm
      have h2 : (List.insertionSort leAdded (entriesOfShow s snapshot)).filter
          (fun x => x.uri ∉
            (capSelection maxPerShow snapshot s).map (·.uri)) =
          (List.insertionSort leAdded (entriesOfShow s snapshot)).drop
            ((entriesOfShow s snapshot).length - maxPerShow) := by
        conv_lhs => rw [← List.take_append_drop
          ((entriesOfShow s snapshot).length - maxPerShow)
          (List.insertionSort leAdded (entriesOfShow s snapshot))]
        rw [List.filter_append, htake_nil, hdrop_self, List.nil_append]
      rw [h2] at h1
      exact h1
    refine ⟨hcall, hlencap, ?_, ?_⟩
    · rw [hfilter_eq, hkept_perm.length_eq, List.length_drop, hlensorted]
      omega
    · intro r hr k hk
      have hr' : r ∈ (List.insertionSort leAdded
          (entriesOfShow s snapshot)).take
          ((entriesOfShow s snapshot).length - maxPerShow) := by
        rw [hcapdef] at hr
        exact hr
      rw [hfilter_eq] at hk
      have hk' : k ∈ (List.insertionSort leAdded
          (entriesOfShow s snapshot)).drop
          ((entriesOfShow s snapshot).length - maxPerShow) :=
        hkept_perm.mem_iff.mp hk
      have hsorted : List.Sorted leAdded
          (List.insertionSort leAdded (entriesOfShow s snapshot)) :=
        List.sorted_insertionSort leAdded (entriesOfShow s snapshot)
      have hle : r.addedAt ≤ k.addedAt :=
        hsorted.rel_of_mem_take_of_mem_drop hr' hk'
      by_cases heq : r.addedAt = k.addedAt
      · refine Or.inr ⟨heq, ?_⟩
        have h3 : List.Sublist [r, k]
            (List.insertionSort leAdded (entriesOfShow s snapshot)) := by
          have h12 := (List.singleton_sublist.mpr hr').append
            (List.singleton_sublist.mpr hk')
          rwa [List.take_append_drop] at h12
        have hpboth : [r, k].filter (fun e => e.addedAt = r.addedAt) =
            [r, k] := by
          simp [List.filter_cons, heq.symm]
        have h4 : List.Sublist [r, k]
            ((List.insertionSort leAdded (entriesOfShow s snapshot)).filter
              (fun e => e.addedAt = r.addedAt)) := by
          have h5 := List.Sublist.filter
            (fun e => decide (e.addedAt = r.addedAt)) h3
          rwa [hpboth] at h5
        rw [insertionSort_filter_key r.addedAt (entriesOfShow s snapshot)]
          at h4
        exact (h4.trans (List.filter_sublist _)).trans
          (List.filter_sublist snapshot)
      · exact Or.inl (lt_of_le_of_ne hle heq)
  · intro s hle x hx hmem
    have hxsnap : x ∈ snapshot := (List.mem_filter.mp hx).1
    rcases capRemoved_self maxPerShow snapshot hnd x hxsnap hmem with
      ⟨k, hk, hkcount, _⟩
    have hxid : x.showId = some s := entriesOfShow_showId s snapshot x hx
    rw [hxid, Option.some_inj] at hk
    subst hk
    have hsne : s ≠ "undefined" := by
      intro hu
      exact hnone x hxsnap (by rw [← hu]; exact hxid)
    rw [entriesOfKey_eq_entriesOfShow s hsne snapshot] at hkcount
    exact absurd hkcount (not_lt.mpr hle)
  · intro x hxsnap hxid hmem
    rcases capRemoved_self maxPerShow snapshot hnd x hxsnap hmem with
      ⟨k, hk, _, _⟩
    rw [hxid] at hk
    exact absurd hk (by simp)

/-! ## Concrete scenarios -/

/-- §8 scenario for the admission counter: one show; discovery returns
`E1` (already in the playlist) and `E2` (absent); all remote calls
succeed. -/
def envC1 : Env where
  shows := [⟨"X", "a/show/S1"⟩]
  playlistFetch := .ok [⟨some ⟨"id1", some "E1", "spotify:show:S1"⟩, 5⟩]
  showFetch := fun _ =>
    .ok [some ⟨some "E1", some "n1"⟩, some ⟨some "E2", some "n2"⟩]
  addOk := fun _ => true
  now := 10
  maxAgeDays := 30
  maxPerShow := 5
  removeCapOk := fun _ => true
  metaFetch := .error ()

/-- Two shows; the episode fetch for show A fails, show B's discovery
returns `E9`, absent from the (empty) playlist. -/
def envC2 : Env where
  shows := [⟨"A", "a/show/SA"⟩, ⟨"B", "a/show/SB"⟩]
  playlistFetch := .ok []
  showFetch := fun sid =>
    if sid = "SA" then .error () else .ok [some ⟨some "E9", some "n"⟩]
  addOk := fun _ => true
  now := 10
  maxAgeDays := 30
  maxPerShow := 5
  removeCapOk := fun _ => true
  metaFetch := .ok (some [])

/-- Claim C1: the total counter `newEpisodesAdded` reported in the job
outcome equals the number of successful add calls.  This FAILS on the
code: in `envC1` exactly one successful add call is made (only the
absent `E2` is added), yet the outcome reports `newEpisodesAdded = 0`,
because the handler passes its counter to `handleShowEpisodes` by value
(JavaScript numbers), so `newEpisodesAdded++` increments a local copy
and the handler's own variable never changes. -/
theorem claim1_counter_code_bug :
    (run envC1).addCalls = ["E2"] ∧
    (run envC1).outcome = .success 0 [⟨"S1", "X", true⟩] := by
  constructor
  · decide
  · decide

/-- Claim C2: a per-show fetch failure should be recorded as a per-show
failure result while the run continues.  This FAILS on the code: the
per-show `catch` block executes `return res.status(...)` with `res` not
in scope, so a `ReferenceError` escapes, the whole run aborts with the
outer catch's error outcome, no result record is pushed, show B is never
evaluated (its absent episode `E9` is not added) and no cleanup pass
runs — even though, had it been reached, show B would have added `E9`
and recorded a success result, as the second conjunct shows. -/
theorem claim2_isolation_code_bug :
    run envC2 = ⟨.failure, [], [], [], []⟩ ∧
    handleShowEpisodes envC2.showFetch envC2.addOk [] ⟨"B", "a/show/SB"⟩ =
      .ok ["E9"] [⟨"SB", "B", true⟩] := by
  constructor
  · decide
  · decide

/-- §8 scenario for the cap: three entries of show A added at (relative)
times −10, −5, −1, cap 2 — the pass must remove only the oldest. -/
def snapC3 : List PlaylistEntry :=
  [⟨"i1", "u1", -10, some "A"⟩, ⟨"i2", "u2", -5, some "A"⟩,
   ⟨"i3", "u3", -1, some "A"⟩]

theorem claim3_per_show_cap_witness :
    ((entriesOfShow "A" snapC3).filter
      (fun x => x.uri ∉ capRemovedUris 2 snapC3)).length = 2 :=
  ((claim3_per_show_cap 2 snapC3 (by decide) (by decide)).1 "A"
    (by decide)).2.2.1

/-- Three entries whose artist URI yields no show id: the cap pass
counts them under the coerced object key `"undefined"`. -/
def snapC3n : List PlaylistEntry :=
  [⟨"i1", "u1", -10, none⟩, ⟨"i2", "u2", -5, none⟩, ⟨"i3", "u3", -1, none⟩]

/-- Counterexample to claim C3 as stated: the group of entries without
an extractable show id is counted under the key `"undefined"` and is
over the cap (3 > 2), yet the pass's only removal call is empty —
`ep.showId === "undefined"` is false for every entry whose `showId` is
`undefined` — so all three entries remain, not the claimed two. -/
theorem claim3_cap_counterexample :
    2 < (entriesOfKey "undefined" snapC3n).length ∧
    cleanupMaxEpisodes 2 snapC3n = [[]] ∧
    (snapC3n.filter
      (fun x => x.uri ∉ capRemovedUris 2 snapC3n)).length = 3 := by
  refine ⟨by decide, by decide, by decide⟩

/-- §8 scenario for age expiry: entries added 40 and 20 days before a
run at time 0, with `maxAgeDays = 30` (timestamps in milliseconds). -/
def snapC4 : List PlaylistEntry :=
  [⟨"i1", "u1", -3456000000, some "A"⟩, ⟨"i2", "u2", -1728000000, some "A"⟩]

theorem claim4_age_expiry_witness :
    ∃ c, cleanupOldEpisodes 0 30 snapC4 = [c] ∧
      ∀ e ∈ snapC4, e.addedAt < cutoff 0 30 → e.uri ∈ c :=
  (claim4_age_expiry 0 30 snapC4 (by decide)).2.2
    ⟨⟨"i1", "u1", -3456000000, some "A"⟩, by decide, by decide⟩

def snapC5 : List PlaylistEntry :=
  [⟨"i1", "u1", 0, some "A"⟩, ⟨"i2", "u2", 0, some "A"⟩]

/-- A fetched fully-played flag: true for `u1`, false for `u2`. -/
def flagC5 (e : PlaylistEntry) : Option Bool :=
  if e.uri = "u1" then some true else some false

theorem claim5_completed_purge_witness :
    cleanupCompleated
      (.ok (some (snapC5.map (fun e => ⟨e.uri, flagC5 e⟩)))) =
      [(snapC5.filter (fun e => flagC5 e = some true)).map (·.uri)] :=
  (claim5_completed_purge flagC5 snapC5 (by decide)).1

/-- Raw playlist items for the C6 scenario: two entries of show S1, one
well past the age cutoff. -/
def itemsC6 : List RawItem :=
  [⟨some ⟨"i0", some "E0", "spotify:show:S1"⟩, -3000000000⟩,
   ⟨some ⟨"i1", some "E1", "spotify:show:S1"⟩, 0⟩]

/-- §8 scenario for cleanup isolation: admission succeeds, the age and
cap passes have work to do, and the purge metadata response is missing
its `episodes` field. -/
def envC6 : Env where
  shows := [⟨"X", "a/show/S1"⟩]
  playlistFetch := .ok itemsC6
  showFetch := fun _ => .ok [some ⟨some "E2", some "n"⟩]
  addOk := fun _ => true
  now := 0
  maxAgeDays := 30
  maxPerShow := 1
  removeCapOk := fun _ => true
  metaFetch := .ok none

theorem claim6_cleanup_isolation_witness :
    (run envC6).outcome.isSuccess = true ∧ (run envC6).purgeCalls = [] :=
  ⟨(claim6_cleanup_isolation envC6 itemsC6 rfl (by decide)).1,
    (claim6_cleanup_isolation envC6 itemsC6 rfl (by decide)).2.2.2.2.1 rfl⟩

/-- Raw playlist items for the C7 scenario: one old entry `E1`. -/
def itemsC7 : List RawItem :=
  [⟨some ⟨"i1", some "E1", "spotify:show:S1"⟩, -3000000000⟩]

/-- Scenario where every retention pass removes `E1` while admission
adds the new `E2`: the age cutoff catches `E1`, the cap (0 per show)
selects it, and the purge metadata marks it fully played. -/
def envC7 : Env where
  shows := [⟨"X", "a/show/S1"⟩]
  playlistFetch := .ok itemsC7
  showFetch := fun _ => .ok [some ⟨some "E2", some "n"⟩]
  addOk := fun _ => true
  now := 0
  maxAgeDays := 30
  maxPerShow := 0
  removeCapOk := fun _ => true
  metaFetch := .ok (some [⟨"E1", some true⟩])

theorem claim7_pre_admission_snapshot_witness :
    (∀ c ∈ (run envC7).oldCalls, "E2" ∉ c) ∧
    (∀ c ∈ (run envC7).capCalls, "E2" ∉ c) ∧
    (∀ c ∈ (run envC7).purgeCalls, "E2" ∉ c) :=
  claim7_pre_admission_snapshot envC7 itemsC7 rfl
    (by
      intro metas h
      have h2 : (Except.ok (some [⟨"E1", some true⟩]) :
          Except Unit (Option (List EpisodeMeta))) = .ok (some metas) := h
      injection h2 with h3
      injection h3 with h4
      rw [← h4]
      decide)
    "E2" (by decide)

def envC8 : Env where
  shows := [⟨"X", "a/show/S1"⟩]
  playlistFetch := .error ()
  showFetch := fun _ => .ok []
  addOk := fun _ => true
  now := 0
  maxAgeDays := 30
  maxPerShow := 5
  removeCapOk := fun _ => true
  metaFetch := .ok (some [])

theorem claim8_snapshot_gate_witness :
    run envC8 = ⟨.failure, [], [], [], []⟩ :=
  claim8_snapshot_gate.1 envC8 () rfl

theorem claim9_purge_always_calls_witness :
    cleanupCompleated (.ok (some [])) = [[]] :=
  claim9_purge_always_calls.2.1

/-- A show URL whose extracted id is the empty string. -/
def cfgC10 : ShowConfig := ⟨"X", "a/show/?si=q"⟩

theorem claim10_no_record_paths_witness :
    handleShowEpisodes (fun _ => .ok []) (fun _ => true) [] cfgC10 =
      .ok [] [] :=
  (claim10_no_record_paths (fun _ => .ok []) (fun _ => true) [] cfgC10).1
    (by decide)

end SpotifyPodcast
